import Mathlib

set_option maxHeartbeats 1000000

/- Verification development for the deanonymizer program (src/deanonymizer.py).

   The program is embedded shallowly:
   - Python strings are lists of characters; the built-in replace method of
     Python strings is modelled by pyReplace below, including the special
     behaviour of the empty pattern.
   - reconstruct_text, infer_user_id, hybrid_decrypt and
     process_response_files are translated definition by definition from the
     source. Cryptographic primitives (base64 decoding, RSA-OAEP unwrap,
     AES-CFB decryption, JSON parsing of the plaintext) are opaque effects of
     the environment and are passed in as an explicit record of oracle
     functions; every theorem quantifies over them, so nothing depends on a
     particular cipher.
   - The batch processor is modelled as a trace of events (key file loads,
     identity resolution, per-record outputs, per-record errors, notices),
     which makes the temporal claims about it statable. -/

/- ---------------------------------------------------------------------- -/
/- Python string replacement, modelled from the semantics of str.replace.  -/
/- ---------------------------------------------------------------------- -/

/-- Scanning step of CPython str.replace for a nonempty pattern: scan the
text left to right; on a match emit the replacement and skip the matched
characters, otherwise keep one character and continue. The fuel argument
only bounds the recursion; callers pass the length of the text, which always
suffices because every step consumes at least one character. -/
def pyReplaceGo (pat rep : List Char) : Nat → List Char → List Char
  | _, [] => []
  | 0, s => s
  | fuel + 1, c :: rest =>
    if pat.isPrefixOf (c :: rest) then
      rep ++ pyReplaceGo pat rep fuel (List.drop pat.length (c :: rest))
    else
      c :: pyReplaceGo pat rep fuel rest

/-- Behaviour of CPython str.replace with an empty pattern: the replacement
is inserted before every character of the text and once more at the end. -/
def interleave (rep : List Char) : List Char → List Char
  | [] => rep
  | c :: rest => rep ++ c :: interleave rep rest

/-- Model of the Python expression s.replace(pat, rep): every
non-overlapping occurrence of pat in s is replaced by rep, scanning left to
right; the empty pattern matches at every position, interleaving rep through
the text. -/
def pyReplace (s pat rep : List Char) : List Char :=
  match pat with
  | [] => interleave rep s
  | _ :: _ => pyReplaceGo pat rep s.length s

/-- Decidable occurrence test, the Python expression pat in s on strings:
does pat occur as a contiguous substring of s. The empty pattern occurs in
every string. -/
def occursIn (pat : List Char) : List Char → Bool
  | [] => pat.isEmpty
  | c :: rest => pat.isPrefixOf (c :: rest) || occursIn pat rest

/-- EntityMapping: the ordered sequence of (placeholder, original) pairs
recovered from the decrypted envelope payload. -/
abbrev EntityMapping := List (List Char × List Char)

/-- Embedding of reconstruct_text from src/deanonymizer.py: iterate over the
entity mapping in order and replace, at each step, all occurrences of the
placeholder in the current text by the original value. -/
def reconstruct_text (anonymized_text : List Char) (entity_mapping : EntityMapping) : List Char :=
  match entity_mapping with
  | [] => anonymized_text
  | (placeholder, original) :: rest =>
      reconstruct_text (pyReplace anonymized_text placeholder original) rest

/- Lemmas about the replacement model. -/

lemma occursIn_nil_left (s : List Char) : occursIn [] s = true := by
  induction s with
  | nil => rfl
  | cons c rest ih => simp [occursIn, ih, List.isPrefixOf]

lemma pyReplaceGo_of_not_occurs (pat rep : List Char) :
    ∀ (fuel : Nat) (s : List Char), s.length ≤ fuel → occursIn pat s = false →
      pyReplaceGo pat rep fuel s = s := by
  intro fuel
  induction fuel with
  | zero =>
    intro s hs _
    cases s with
    | nil => rfl
    | cons c rest => simp at hs
  | succ n ih =>
    intro s hs hocc
    cases s with
    | nil => rfl
    | cons c rest =>
      rw [occursIn, Bool.or_eq_false_iff] at hocc
      rw [pyReplaceGo, if_neg (by simp [hocc.1])]
      have hlen : rest.length ≤ n := by
        simpa using Nat.le_of_succ_le_succ hs
      rw [ih rest hlen hocc.2]

lemma pyReplace_of_not_occurs (s pat rep : List Char) (h : occursIn pat s = false) :
    pyReplace s pat rep = s := by
  cases pat with
  | nil => rw [occursIn_nil_left] at h; exact absurd h (by simp)
  | cons p ps => exact pyReplaceGo_of_not_occurs (p :: ps) rep s.length s le_rfl h

lemma reconstruct_text_append (t : List Char) (m : EntityMapping) (p o : List Char) :
    reconstruct_text t (m ++ [(p, o)]) = pyReplace (reconstruct_text t m) p o := by
  induction m generalizing t with
  | nil => rfl
  | cons pr rest ih =>
    obtain ⟨q, r⟩ := pr
    simpa [reconstruct_text] using ih (pyReplace t q r)

lemma reconstruct_text_fixed (m : EntityMapping) :
    ∀ s : List Char, (∀ pr ∈ m, occursIn pr.1 s = false) → reconstruct_text s m = s := by
  induction m with
  | nil => intro s _; rfl
  | cons pr rest ih =>
    intro s h
    obtain ⟨p, o⟩ := pr
    have hp : occursIn p s = false := h (p, o) (List.mem_cons_self _ _)
    have hs : pyReplace s p o = s := pyReplace_of_not_occurs s p o hp
    calc reconstruct_text s ((p, o) :: rest)
        = reconstruct_text s rest := by simp [reconstruct_text, hs]
      _ = s := ih s (fun pr2 h2 => h pr2 (List.mem_cons_of_mem _ h2))

/- ---------------------------------------------------------------------- -/
/- Errors, envelope and the hybrid decryption chain.                       -/
/- ---------------------------------------------------------------------- -/

/-- Failure modes of the program, one constructor per distinct raise site or
library exception observable by a caller of the source code:
identityNotInEnvelope is the ValueError raised at the membership check in
hybrid_decrypt; noMatchingIdentity is the ValueError raised at the end of
infer_user_id; base64Failure is the binascii error from base64.b64decode;
oaepFailure is the uniform ValueError of an RSA-OAEP decrypt;
cipherFailure is the ValueError of AES or CFB construction (bad key or IV
size); jsonFailure is a UTF-8 decode or JSON parse error of the decrypted
payload. -/
inductive DeanonError where
  | identityNotInEnvelope
  | noMatchingIdentity
  | base64Failure
  | oaepFailure
  | cipherFailure
  | jsonFailure
  deriving DecidableEq

/-- EncryptedEnvelope as consumed by hybrid_decrypt: a mapping from identity
to a base64 string holding the wrapped AES key, a base64 IV and base64
ciphertext. The Python dict is modelled as an association list queried with
List.lookup. -/
structure EncryptedPackage where
  encrypted_aes_keys : List (String × String)
  iv : String
  encrypted_data : String
  deriving DecidableEq

/-- Oracle record for the cryptographic and parsing primitives used by
hybrid_decrypt. Each field is a pure function returning none exactly when
the corresponding library call would raise: b64decode for base64.b64decode,
rsaDecryptOaep for private_key.decrypt with OAEP padding (the private key is
part of the oracle), aesCfbDecrypt for the AES-CFB decryptor applied to key,
IV and ciphertext, and jsonParseMapping for decoding the plaintext as UTF-8
and parsing it as a JSON entity mapping. Bytes are lists of naturals. -/
structure CryptoOps where
  b64decode : String → Option (List Nat)
  rsaDecryptOaep : List Nat → Option (List Nat)
  aesCfbDecrypt : List Nat → List Nat → List Nat → Option (List Nat)
  jsonParseMapping : List Nat → Option EntityMapping

/-- Embedding of hybrid_decrypt from src/deanonymizer.py, step for step in
source order: membership check of the user id in encrypted_aes_keys, base64
decode of the wrapped key, RSA-OAEP unwrap, base64 decode of IV and
ciphertext, AES-CFB decryption, then JSON parsing of the plaintext. Each
failing step maps to its own error constructor, mirroring the distinct
exceptions of the source. -/
def hybrid_decrypt (ops : CryptoOps) (encrypted_package : EncryptedPackage)
    (user_id : String) : Except DeanonError EntityMapping :=
  match List.lookup user_id encrypted_package.encrypted_aes_keys with
  | none => Except.error DeanonError.identityNotInEnvelope
  | some b64key =>
    match ops.b64decode b64key with
    | none => Except.error DeanonError.base64Failure
    | some encrypted_aes_key =>
      match ops.rsaDecryptOaep encrypted_aes_key with
      | none => Except.error DeanonError.oaepFailure
      | some aes_key =>
        match ops.b64decode encrypted_package.iv with
        | none => Except.error DeanonError.base64Failure
        | some iv =>
          match ops.b64decode encrypted_package.encrypted_data with
          | none => Except.error DeanonError.base64Failure
          | some encrypted_data =>
            match ops.aesCfbDecrypt aes_key iv encrypted_data with
            | none => Except.error DeanonError.cipherFailure
            | some decrypted_data =>
              match ops.jsonParseMapping decrypted_data with
              | none => Except.error DeanonError.jsonFailure
              | some mapping => Except.ok mapping

/-- Embedding of the candidate scan of infer_user_id from
src/deanonymizer.py. The catalog lists the already parsed public keys in
directory scan order, each as its identity (the file stem) paired with its
RSA modulus; keys that fail to parse are skipped by the source before this
scan and so simply do not appear. The first candidate whose modulus equals
the modulus of the private key wins; with no match the scan fails. -/
def infer_user_id (privN : Nat) (catalog : List (String × Nat)) : Except DeanonError String :=
  match catalog with
  | [] => Except.error DeanonError.noMatchingIdentity
  | (uid, pubN) :: rest =>
    if privN = pubN then Except.ok uid else infer_user_id privN rest

/- Shared lemma: the membership check comes first and decides the result on
its own. -/
lemma hybrid_decrypt_lookup_none (ops : CryptoOps) (pkg : EncryptedPackage) (uid : String)
    (h : List.lookup uid pkg.encrypted_aes_keys = none) :
    hybrid_decrypt ops pkg uid = Except.error DeanonError.identityNotInEnvelope := by
  simp only [hybrid_decrypt, h]

/- ---------------------------------------------------------------------- -/
/- Batch processing over response files, as an event trace.                -/
/- ---------------------------------------------------------------------- -/

/-- One input record of the batch processor, already classified by its file
suffix as the source loop does: a .json response file carries its anonymized
text and its own encrypted envelope; a .txt response file carries the
reworked text, and its companion mapping file in the output folder either
exists (some envelope) or is missing (none); any other suffix is an
unsupported record. The stem is the file name without extension. -/
inductive ResponseFile where
  | jsonFile (stem : String) (anonymized_text : List Char) (encrypted_mapping : EncryptedPackage)
  | txtFile (stem : String) (reworked_text : List Char) (mapping_file : Option EncryptedPackage)
  | otherFile (stem : String)
  deriving DecidableEq

/-- Observable events of one run of process_response_files, in order:
creation of the output directory, the no-input notice, each read and parse
of the private key file (one event per call of load_private_key), the
resolved identity, a fatal error escaping the run, and per record either a
written output file, a reported error, or a skip notice. -/
inductive Event where
  | madeOutputDir
  | noFilesNotice
  | loadKeyFile
  | identityResolved (uid : String)
  | fatal (e : DeanonError)
  | wroteOutput (name : String) (text : List Char)
  | recordError (stem : String) (e : DeanonError)
  | skippedMappingMissing (stem : String)
  | skippedUnsupported (stem : String)
  deriving DecidableEq

/-- Events produced by the loop body of process_response_files for one
record: a .json record is decrypted and reconstructed from its own envelope;
a .txt record first requires its companion mapping file, which if missing
yields a skip notice; decryption failure yields a reported record error, and
success writes the reconstructed text under the stem plus the fixed
reconstructed suffix; other suffixes yield an unsupported-record notice. -/
def processOne (ops : CryptoOps) (user_id : String) (f : ResponseFile) : List Event :=
  match f with
  | ResponseFile.jsonFile stem text env =>
    match hybrid_decrypt ops env user_id with
    | Except.error e => [Event.recordError stem e]
    | Except.ok m => [Event.wroteOutput (stem ++ "_reconstructed.txt") (reconstruct_text text m)]
  | ResponseFile.txtFile stem _ none => [Event.skippedMappingMissing stem]
  | ResponseFile.txtFile stem text (some env) =>
    match hybrid_decrypt ops env user_id with
    | Except.error e => [Event.recordError stem e]
    | Except.ok m => [Event.wroteOutput (stem ++ "_reconstructed.txt") (reconstruct_text text m)]
  | ResponseFile.otherFile stem => [Event.skippedUnsupported stem]

/-- Trace of the for-loop of process_response_files over the listed records
in order; the try-except around each iteration is reflected in processOne
ending every record in a single terminal event, never aborting the fold. -/
def runRecords (ops : CryptoOps) (user_id : String) : List ResponseFile → List Event
  | [] => []
  | f :: fs => processOne ops user_id f ++ runRecords ops user_id fs

/-- Embedding of process_response_files from src/deanonymizer.py as an event
trace: make the output directory; if the listing of the response folder is
empty, print the notice and return; otherwise call infer_user_id (which
itself loads and parses the private key file, hence the first loadKeyFile
event), then load the private key file again (second loadKeyFile event, line
105 of the source), then run the per-record loop. A failure of
infer_user_id escapes the function before the loop. -/
def process_response_files (privN : Nat) (catalog : List (String × Nat)) (ops : CryptoOps)
    (files : List ResponseFile) : List Event :=
  match files with
  | [] => [Event.madeOutputDir, Event.noFilesNotice]
  | f :: fs =>
    Event.madeOutputDir :: Event.loadKeyFile ::
    match infer_user_id privN catalog with
    | Except.error e => [Event.fatal e]
    | Except.ok uid =>
      Event.identityResolved uid :: Event.loadKeyFile :: runRecords ops uid (f :: fs)

/-- Successful outputs of a run: the written files with their contents, in
order. -/
def outputsOf (evs : List Event) : List (String × List Char) :=
  evs.filterMap fun e =>
    match e with
    | Event.wroteOutput n t => some (n, t)
    | _ => none

/-- Reported per-record errors of a run, attributed to their record stems,
in order. -/
def errorsOf (evs : List Event) : List (String × DeanonError) :=
  evs.filterMap fun e =>
    match e with
    | Event.recordError stem err => some (stem, err)
    | _ => none

/-- Number of times the private key file is read and parsed during a run. -/
def keyLoadCount (evs : List Event) : Nat :=
  (evs.filter fun e =>
    match e with
    | Event.loadKeyFile => true
    | _ => false).length

/- Lemmas about the batch trace. -/

lemma runRecords_append (ops : CryptoOps) (uid : String) (l1 l2 : List ResponseFile) :
    runRecords ops uid (l1 ++ l2) = runRecords ops uid l1 ++ runRecords ops uid l2 := by
  induction l1 with
  | nil => rfl
  | cons f fs ih => simp [runRecords, ih]

lemma process_response_files_of_ok (privN : Nat) (catalog : List (String × Nat))
    (ops : CryptoOps) (files : List ResponseFile) (uid : String)
    (hne : files ≠ []) (hok : infer_user_id privN catalog = Except.ok uid) :
    process_response_files privN catalog ops files =
      Event.madeOutputDir :: Event.loadKeyFile :: Event.identityResolved uid ::
        Event.loadKeyFile :: runRecords ops uid files := by
  cases files with
  | nil => exact absurd rfl hne
  | cons f fs => simp [process_response_files, hok]

lemma outputsOf_append (a b : List Event) :
    outputsOf (a ++ b) = outputsOf a ++ outputsOf b := by
  simp [outputsOf, List.filterMap_append]

lemma errorsOf_append (a b : List Event) :
    errorsOf (a ++ b) = errorsOf a ++ errorsOf b := by
  simp [errorsOf, List.filterMap_append]

lemma processOne_shape (ops : CryptoOps) (uid : String) (f : ResponseFile) :
    (∃ stem e, processOne ops uid f = [Event.recordError stem e]) ∨
    (∃ n t, processOne ops uid f = [Event.wroteOutput n t]) ∨
    (∃ stem, processOne ops uid f = [Event.skippedMappingMissing stem]) ∨
    (∃ stem, processOne ops uid f = [Event.skippedUnsupported stem]) := by
  cases f with
  | jsonFile stem text env =>
    cases h : hybrid_decrypt ops env uid with
    | error e => exact Or.inl ⟨stem, e, by simp [processOne, h]⟩
    | ok m => exact Or.inr (Or.inl ⟨stem ++ "_reconstructed.txt", reconstruct_text text m, by simp [processOne, h]⟩)
  | txtFile stem text mf =>
    cases mf with
    | none => exact Or.inr (Or.inr (Or.inl ⟨stem, by simp [processOne]⟩))
    | some env =>
      cases h : hybrid_decrypt ops env uid with
      | error e => exact Or.inl ⟨stem, e, by simp [processOne, h]⟩
      | ok m => exact Or.inr (Or.inl ⟨stem ++ "_reconstructed.txt", reconstruct_text text m, by simp [processOne, h]⟩)
  | otherFile stem => exact Or.inr (Or.inr (Or.inr ⟨stem, by simp [processOne]⟩))

lemma keyLoadCount_processOne (ops : CryptoOps) (uid : String) (f : ResponseFile) :
    keyLoadCount (processOne ops uid f) = 0 := by
  rcases processOne_shape ops uid f with ⟨s, e, h⟩ | ⟨n, t, h⟩ | ⟨s, h⟩ | ⟨s, h⟩ <;>
    simp [h, keyLoadCount]

lemma keyLoadCount_runRecords (ops : CryptoOps) (uid : String) (files : List ResponseFile) :
    keyLoadCount (runRecords ops uid files) = 0 := by
  induction files with
  | nil => rfl
  | cons f fs ih =>
    have h1 := keyLoadCount_processOne ops uid f
    simp only [runRecords, keyLoadCount, List.filter_append, List.length_append] at *
    omega

lemma identityResolved_not_mem_processOne (ops : CryptoOps) (uid u : String)
    (f : ResponseFile) : Event.identityResolved u ∉ processOne ops uid f := by
  rcases processOne_shape ops uid f with ⟨s, e, h⟩ | ⟨n, t, h⟩ | ⟨s, h⟩ | ⟨s, h⟩ <;>
    simp [h]

lemma identityResolved_not_mem_runRecords (ops : CryptoOps) (uid u : String)
    (files : List ResponseFile) : Event.identityResolved u ∉ runRecords ops uid files := by
  induction files with
  | nil => simp [runRecords]
  | cons f fs ih =>
    simp only [runRecords, List.mem_append]
    rintro (h | h)
    · exact identityResolved_not_mem_processOne ops uid u f h
    · exact ih h

/- ---------------------------------------------------------------------- -/
/- Concrete fixtures for witnesses and counterexamples.                    -/
/- ---------------------------------------------------------------------- -/

/-- Oracle on which every primitive fails; statements that must not depend
on the cryptographic environment are witnessed against it. -/
def opsFailAll : CryptoOps where
  b64decode := fun _ => none
  rsaDecryptOaep := fun _ => none
  aesCfbDecrypt := fun _ _ _ => none
  jsonParseMapping := fun _ => none

/-- Concrete oracle for the batch fixtures: base64 decoding maps each
character to its code point; only the wrapped key of the good envelope (the
one-character string k, decoding to 107) unwraps, yielding the AES key 9;
AES-CFB under that key returns the ciphertext unchanged; a plaintext
decoding to 65 parses as the mapping sending placeholder P to Alice. -/
def ops0 : CryptoOps where
  b64decode := fun s => some (s.toList.map Char.toNat)
  rsaDecryptOaep := fun b => if b = [107] then some [9] else none
  aesCfbDecrypt := fun k _ ct => if k = [9] then some ct else none
  jsonParseMapping := fun b => if b = [65] then some [("P".toList, "Alice".toList)] else none

/-- Envelope for alice whose wrapped key unwraps under ops0. -/
def envGood : EncryptedPackage := ⟨[(("alice"), ("k"))], ("i"), ("A")⟩

/-- Corrupt envelope for alice: its wrapped key fails to unwrap under
ops0. -/
def envBad : EncryptedPackage := ⟨[(("alice"), ("x"))], ("i"), ("A")⟩

/-- First batch record: a self-contained json record with a good
envelope. -/
def rec1 : ResponseFile := ResponseFile.jsonFile ("r1") ("Hello P".toList) envGood

/-- Second batch record: a self-contained json record whose envelope is
corrupt. -/
def rec2 : ResponseFile := ResponseFile.jsonFile ("r2") ("t2".toList) envBad

/-- Third batch record: a txt record whose companion mapping file holds a
good envelope. -/
def rec3 : ResponseFile := ResponseFile.txtFile ("r3") ("Bye P".toList) (some envGood)

/- ---------------------------------------------------------------------- -/
/- Claim theorems.                                                         -/
/- ---------------------------------------------------------------------- -/

/-- C1: infer_user_id returns the identity of a candidate whose public-key
modulus equals the modulus derived from the private key; when the catalog
holds exactly one matching key among arbitrary non-matching ones, the result
is that identity for every catalog ordering satisfying the hypotheses; and
with no matching candidate it fails with the no-matching-identity error. -/
theorem C1_identity_resolution :
    (∀ (privN : Nat) (cat : List (String × Nat)) (uid : String),
        infer_user_id privN cat = Except.ok uid →
        ∃ pubN, (uid, pubN) ∈ cat ∧ pubN = privN) ∧
    (∀ (privN : Nat) (cat : List (String × Nat)) (uid : String),
        (uid, privN) ∈ cat →
        (∀ pr ∈ cat, pr.2 = privN → pr.1 = uid) →
        infer_user_id privN cat = Except.ok uid) ∧
    (∀ (privN : Nat) (cat : List (String × Nat)),
        (∀ pr ∈ cat, pr.2 ≠ privN) →
        infer_user_id privN cat = Except.error DeanonError.noMatchingIdentity) := by
  refine ⟨?_, ?_, ?_⟩
  · intro privN cat
    induction cat with
    | nil => intro uid h; simp [infer_user_id] at h
    | cons pr rest ih =>
      intro uid h
      obtain ⟨u, p⟩ := pr
      by_cases hp : privN = p
      · rw [show infer_user_id privN ((u, p) :: rest) =
              (if privN = p then Except.ok u else infer_user_id privN rest) from rfl,
            if_pos hp] at h
        simp only [Except.ok.injEq] at h
        subst h
        exact ⟨p, List.mem_cons_self _ _, hp.symm⟩
      · rw [show infer_user_id privN ((u, p) :: rest) =
              (if privN = p then Except.ok u else infer_user_id privN rest) from rfl,
            if_neg hp] at h
        obtain ⟨pubN, hmem, hEq⟩ := ih uid h
        exact ⟨pubN, List.mem_cons_of_mem _ hmem, hEq⟩
  · intro privN cat
    induction cat with
    | nil => intro uid h _; simp at h
    | cons pr rest ih =>
      intro uid hmem huniq
      obtain ⟨u, p⟩ := pr
      by_cases hp : privN = p
      · have hu : u = uid := huniq (u, p) (List.mem_cons_self _ _) hp.symm
        rw [show infer_user_id privN ((u, p) :: rest) =
              (if privN = p then Except.ok u else infer_user_id privN rest) from rfl,
            if_pos hp, hu]
      · have hmem2 : (uid, privN) ∈ rest := by
          rcases List.mem_cons.mp hmem with heq | h2
          · exact absurd (congrArg Prod.snd heq) hp
          · exact h2
        rw [show infer_user_id privN ((u, p) :: rest) =
              (if privN = p then Except.ok u else infer_user_id privN rest) from rfl,
            if_neg hp]
        exact ih uid hmem2 (fun pr2 h2 => huniq pr2 (List.mem_cons_of_mem _ h2))
  · intro privN cat
    induction cat with
    | nil => intro _; rfl
    | cons pr rest ih =>
      intro h
      obtain ⟨u, p⟩ := pr
      have hp : privN ≠ p := fun hEq => h (u, p) (List.mem_cons_self _ _) hEq.symm
      rw [show infer_user_id privN ((u, p) :: rest) =
            (if privN = p then Except.ok u else infer_user_id privN rest) from rfl,
          if_neg hp]
      exact ih (fun pr2 h2 => h pr2 (List.mem_cons_of_mem _ h2))

/-- Witness for C1 at a concrete catalog: the unique matching key wins from
the middle of the catalog, and a modulus matching no candidate fails. -/
theorem C1_identity_resolution_witness :
    infer_user_id 5 [(("bob"), 3), (("alice"), 5), (("carol"), 7)] = Except.ok ("alice") ∧
    infer_user_id 9 [(("bob"), 3), (("alice"), 5)] = Except.error DeanonError.noMatchingIdentity :=
  ⟨C1_identity_resolution.2.1 5 _ ("alice") (by decide) (by decide),
   C1_identity_resolution.2.2 9 _ (by decide)⟩

/-- C2: reconstruct_text applies the mapping pairs in the given order (a
mapping extended with a final pair is the reconstruction by the prefix
followed by that replacement), a pair whose placeholder does not occur
leaves the text unchanged at its step, the concrete reconstruction of the
specification holds, and every occurrence of a placeholder is replaced. -/
theorem C2_reconstruction :
    (∀ (t : List Char) (m : EntityMapping) (p o : List Char),
        reconstruct_text t (m ++ [(p, o)]) = pyReplace (reconstruct_text t m) p o) ∧
    (∀ s p o : List Char, occursIn p s = false → pyReplace s p o = s) ∧
    reconstruct_text ("Hello PERSON_1, from ORG_1".toList)
        [(("PERSON_1".toList), ("Alice".toList)), (("ORG_1".toList), ("Acme".toList))] =
      ("Hello Alice, from Acme".toList) ∧
    pyReplace ("aXbXc".toList) ("X".toList) ("YY".toList) = ("aYYbYYc".toList) :=
  ⟨reconstruct_text_append, pyReplace_of_not_occurs, by decide, by decide⟩

/-- Witness for C2: the no-op part applied at a concrete absent
placeholder. -/
theorem C2_reconstruction_witness :
    pyReplace ("Hello".toList) ("XY".toList) ("Q".toList) = ("Hello".toList) :=
  C2_reconstruction.2.1 ("Hello".toList) ("XY".toList) ("Q".toList) (by decide)

/-- C3: an identity absent from the encrypted key table of the envelope
makes hybrid_decrypt fail with the dedicated missing-identity error, which
is distinct from every decryption-stage error. -/
theorem C3_missing_identity :
    ∀ (ops : CryptoOps) (pkg : EncryptedPackage) (uid : String),
      List.lookup uid pkg.encrypted_aes_keys = none →
      hybrid_decrypt ops pkg uid = Except.error DeanonError.identityNotInEnvelope ∧
      DeanonError.identityNotInEnvelope ≠ DeanonError.base64Failure ∧
      DeanonError.identityNotInEnvelope ≠ DeanonError.oaepFailure ∧
      DeanonError.identityNotInEnvelope ≠ DeanonError.cipherFailure ∧
      DeanonError.identityNotInEnvelope ≠ DeanonError.jsonFailure := by
  intro ops pkg uid h
  exact ⟨hybrid_decrypt_lookup_none ops pkg uid h, by decide, by decide, by decide, by decide⟩

/-- Witness for C3 at a concrete envelope that only carries a key for bob,
queried for alice, under the all-failing oracle. -/
theorem C3_missing_identity_witness :
    hybrid_decrypt opsFailAll ⟨[(("bob"), ("k"))], ("i"), ("A")⟩ ("alice") =
        Except.error DeanonError.identityNotInEnvelope ∧
    DeanonError.identityNotInEnvelope ≠ DeanonError.base64Failure ∧
    DeanonError.identityNotInEnvelope ≠ DeanonError.oaepFailure ∧
    DeanonError.identityNotInEnvelope ≠ DeanonError.cipherFailure ∧
    DeanonError.identityNotInEnvelope ≠ DeanonError.jsonFailure :=
  C3_missing_identity opsFailAll ⟨[(("bob"), ("k"))], ("i"), ("A")⟩ ("alice") (by decide)

/-- C9: the membership check of hybrid_decrypt decides the call before any
decoding or cryptographic work: with the identity absent, the
missing-identity error is returned under every oracle (so it never depends
on the private key) and for arbitrary contents of the other envelope
fields. -/
theorem C9_early_membership_check :
    ∀ (ops ops2 : CryptoOps) (pkg pkg2 : EncryptedPackage) (uid : String),
      pkg2.encrypted_aes_keys = pkg.encrypted_aes_keys →
      List.lookup uid pkg.encrypted_aes_keys = none →
      hybrid_decrypt ops pkg uid = Except.error DeanonError.identityNotInEnvelope ∧
      hybrid_decrypt ops2 pkg2 uid = hybrid_decrypt ops pkg uid := by
  intro ops ops2 pkg pkg2 uid hkeys h
  have h2 : List.lookup uid pkg2.encrypted_aes_keys = none := by rw [hkeys]; exact h
  rw [hybrid_decrypt_lookup_none ops pkg uid h, hybrid_decrypt_lookup_none ops2 pkg2 uid h2]
  exact ⟨rfl, rfl⟩

/-- Witness for C9: same key table but different IV, payload and oracle,
same missing-identity error. -/
theorem C9_early_membership_check_witness :
    hybrid_decrypt opsFailAll ⟨[(("bob"), ("k"))], ("i"), ("A")⟩ ("alice") =
        Except.error DeanonError.identityNotInEnvelope ∧
    hybrid_decrypt ops0 ⟨[(("bob"), ("k"))], ("iv2"), ("junk")⟩ ("alice") =
      hybrid_decrypt opsFailAll ⟨[(("bob"), ("k"))], ("i"), ("A")⟩ ("alice") :=
  C9_early_membership_check opsFailAll ops0 ⟨[(("bob"), ("k"))], ("i"), ("A")⟩
    ⟨[(("bob"), ("k"))], ("iv2"), ("junk")⟩ ("alice") rfl (by decide)

/-- Oracle of a wrong private key: the wrapped AES key decodes but fails to
unwrap under OAEP, as the cryptography library does on a key mismatch. -/
def opsWrongKey : CryptoOps where
  b64decode := fun _ => some [0]
  rsaDecryptOaep := fun _ => none
  aesCfbDecrypt := fun _ _ _ => none
  jsonParseMapping := fun _ => none

/-- Oracle of a corrupted payload: every cryptographic step succeeds but the
decrypted payload fails to parse as JSON. -/
def opsBadPayload : CryptoOps where
  b64decode := fun _ => some [0]
  rsaDecryptOaep := fun _ => some [0]
  aesCfbDecrypt := fun _ _ _ => some [0]
  jsonParseMapping := fun _ => none

/-- C5 counterexample: with the identity present in the envelope, a
wrong-key failure of the asymmetric unwrap and a corrupted-payload parse
failure reach the caller as two different errors, so the surfaced failure
does distinguish which step failed, contradicting the claim of a single
undistinguishing decryption error. -/
theorem C5_counterexample :
    hybrid_decrypt opsWrongKey ⟨[(("alice"), ("K"))], ("I"), ("D")⟩ ("alice") =
        Except.error DeanonError.oaepFailure ∧
    hybrid_decrypt opsBadPayload ⟨[(("alice"), ("K"))], ("I"), ("D")⟩ ("alice") =
        Except.error DeanonError.jsonFailure ∧
    DeanonError.oaepFailure ≠ DeanonError.jsonFailure :=
  ⟨rfl, rfl, by decide⟩

/-- C5 amended: with the identity present, any failing step surfaces as an
error to the caller, but the error identifies the failing step: an
asymmetric-unwrap failure surfaces as the OAEP error while a payload parse
failure after successful decryption surfaces as the JSON error, and the two
errors differ, so wrong key and corrupted ciphertext are distinguishable. -/
theorem C5_step_distinguishing_errors :
    (∀ (ops : CryptoOps) (pkg : EncryptedPackage) (uid b64k : String) (ek : List Nat),
        List.lookup uid pkg.encrypted_aes_keys = some b64k →
        ops.b64decode b64k = some ek →
        ops.rsaDecryptOaep ek = none →
        hybrid_decrypt ops pkg uid = Except.error DeanonError.oaepFailure) ∧
    (∀ (ops : CryptoOps) (pkg : EncryptedPackage) (uid b64k : String)
        (ek ak iv ct pt : List Nat),
        List.lookup uid pkg.encrypted_aes_keys = some b64k →
        ops.b64decode b64k = some ek →
        ops.rsaDecryptOaep ek = some ak →
        ops.b64decode pkg.iv = some iv →
        ops.b64decode pkg.encrypted_data = some ct →
        ops.aesCfbDecrypt ak iv ct = some pt →
        ops.jsonParseMapping pt = none →
        hybrid_decrypt ops pkg uid = Except.error DeanonError.jsonFailure) ∧
    DeanonError.oaepFailure ≠ DeanonError.jsonFailure := by
  refine ⟨?_, ?_, by decide⟩
  · intro ops pkg uid b64k ek h1 h2 h3
    simp only [hybrid_decrypt, h1, h2, h3]
  · intro ops pkg uid b64k ek ak iv ct pt h1 h2 h3 h4 h5 h6 h7
    simp only [hybrid_decrypt, h1, h2, h3, h4, h5, h6, h7]

/-- Witness for the amended C5 at the two concrete failure oracles. -/
theorem C5_step_distinguishing_errors_witness :
    hybrid_decrypt opsWrongKey ⟨[(("alice"), ("K"))], ("I"), ("D")⟩ ("alice") =
        Except.error DeanonError.oaepFailure ∧
    hybrid_decrypt opsBadPayload ⟨[(("alice"), ("K"))], ("I"), ("D")⟩ ("alice") =
        Except.error DeanonError.jsonFailure :=
  ⟨C5_step_distinguishing_errors.1 opsWrongKey ⟨[(("alice"), ("K"))], ("I"), ("D")⟩
      ("alice") ("K") [0] rfl rfl rfl,
   C5_step_distinguishing_errors.2.1 opsBadPayload ⟨[(("alice"), ("K"))], ("I"), ("D")⟩
      ("alice") ("K") [0] [0] [0] [0] [0] rfl rfl rfl rfl rfl rfl rfl⟩

/- Trace prefix lemmas for the batch theorems. -/

lemma keyLoadCount_cons_head (uid : String) (rest : List Event) :
    keyLoadCount (Event.madeOutputDir :: Event.loadKeyFile :: Event.identityResolved uid ::
      Event.loadKeyFile :: rest) = 2 + keyLoadCount rest := by
  simp [keyLoadCount, List.filter_cons]
  omega

lemma outputsOf_cons_head (uid : String) (rest : List Event) :
    outputsOf (Event.madeOutputDir :: Event.loadKeyFile :: Event.identityResolved uid ::
      Event.loadKeyFile :: rest) = outputsOf rest := by
  simp [outputsOf, List.filterMap_cons]

lemma errorsOf_cons_head (uid : String) (rest : List Event) :
    errorsOf (Event.madeOutputDir :: Event.loadKeyFile :: Event.identityResolved uid ::
      Event.loadKeyFile :: rest) = errorsOf rest := by
  simp [errorsOf, List.filterMap_cons]

/-- C6 counterexample: a concrete non-empty run reads and parses the private
key file twice, not once: infer_user_id loads it for identity resolution and
the processor loads it again immediately after. -/
theorem C6_counterexample :
    keyLoadCount (process_response_files 5 [(("alice"), 5)] opsFailAll
        [ResponseFile.otherFile ("x")]) = 2 ∧
    keyLoadCount (process_response_files 5 [(("alice"), 5)] opsFailAll
        [ResponseFile.otherFile ("x")]) ≠ 1 :=
  ⟨by decide, by decide⟩

/-- C6 amended: on every non-empty record collection whose identity
resolution succeeds, the private key file is read and parsed exactly twice,
once inside identity resolution and once directly afterwards, both before
any record is processed; the identity is resolved exactly once; and during
the record loop the key file is never loaded again nor the identity
re-resolved. -/
theorem C6_key_loaded_twice_before_records :
    ∀ (privN : Nat) (cat : List (String × Nat)) (ops : CryptoOps)
      (files : List ResponseFile) (uid : String),
      files ≠ [] → infer_user_id privN cat = Except.ok uid →
      ∃ rest, process_response_files privN cat ops files =
          Event.madeOutputDir :: Event.loadKeyFile :: Event.identityResolved uid ::
            Event.loadKeyFile :: rest ∧
        keyLoadCount rest = 0 ∧
        (∀ u, Event.identityResolved u ∉ rest) ∧
        keyLoadCount (process_response_files privN cat ops files) = 2 := by
  intro privN cat ops files uid hne hok
  refine ⟨runRecords ops uid files,
    process_response_files_of_ok privN cat ops files uid hne hok,
    keyLoadCount_runRecords ops uid files,
    fun u => identityResolved_not_mem_runRecords ops uid u files, ?_⟩
  rw [process_response_files_of_ok privN cat ops files uid hne hok,
    keyLoadCount_cons_head, keyLoadCount_runRecords]

/-- Witness for the amended C6 at a concrete one-record run. -/
theorem C6_key_loaded_twice_before_records_witness :
    ∃ rest, process_response_files 5 [(("alice"), 5)] opsFailAll
        [ResponseFile.otherFile ("x")] =
        Event.madeOutputDir :: Event.loadKeyFile :: Event.identityResolved ("alice") ::
          Event.loadKeyFile :: rest ∧
      keyLoadCount rest = 0 ∧
      (∀ u, Event.identityResolved u ∉ rest) ∧
      keyLoadCount (process_response_files 5 [(("alice"), 5)] opsFailAll
        [ResponseFile.otherFile ("x")]) = 2 :=
  C6_key_loaded_twice_before_records 5 [(("alice"), 5)] opsFailAll
    [ResponseFile.otherFile ("x")] ("alice") (by decide) rfl

/-- C4: batch isolation. A record whose processing yields no output leaves
the outputs of every other record exactly as in the run with that record
absent, while its error report simply joins the reports of the others in
order; concretely, the three-record batch whose middle record has a corrupt
envelope yields exactly the two outputs of the surrounding records, one
reported error for the middle record, and the same outputs as the two-record
run without it. -/
theorem C4_batch_isolation :
    (∀ (privN : Nat) (cat : List (String × Nat)) (ops : CryptoOps) (uid : String)
        (l1 l2 : List ResponseFile) (f : ResponseFile),
        infer_user_id privN cat = Except.ok uid →
        outputsOf (processOne ops uid f) = [] →
        l1 ++ l2 ≠ [] →
        outputsOf (process_response_files privN cat ops (l1 ++ f :: l2)) =
          outputsOf (process_response_files privN cat ops (l1 ++ l2)) ∧
        errorsOf (process_response_files privN cat ops (l1 ++ f :: l2)) =
          errorsOf (runRecords ops uid l1) ++ errorsOf (processOne ops uid f) ++
            errorsOf (runRecords ops uid l2)) ∧
    outputsOf (process_response_files 5 [(("alice"), 5)] ops0 [rec1, rec2, rec3]) =
      [(("r1_reconstructed.txt"), ("Hello Alice".toList)),
       (("r3_reconstructed.txt"), ("Bye Alice".toList))] ∧
    errorsOf (process_response_files 5 [(("alice"), 5)] ops0 [rec1, rec2, rec3]) =
      [(("r2"), DeanonError.oaepFailure)] ∧
    outputsOf (process_response_files 5 [(("alice"), 5)] ops0 [rec1, rec3]) =
      [(("r1_reconstructed.txt"), ("Hello Alice".toList)),
       (("r3_reconstructed.txt"), ("Bye Alice".toList))] := by
  refine ⟨?_, by decide, by decide, by decide⟩
  intro privN cat ops uid l1 l2 f hok hout hne
  have hne1 : l1 ++ f :: l2 ≠ [] := by cases l1 <;> simp
  rw [process_response_files_of_ok privN cat ops _ uid hne1 hok,
      process_response_files_of_ok privN cat ops _ uid hne hok]
  have hsplit : runRecords ops uid (l1 ++ f :: l2) =
      runRecords ops uid l1 ++ (processOne ops uid f ++ runRecords ops uid l2) := by
    rw [show l1 ++ f :: l2 = l1 ++ ([f] ++ l2) from by simp, runRecords_append,
      runRecords_append]
    simp [runRecords]
  rw [hsplit, runRecords_append ops uid l1 l2]
  constructor
  · rw [outputsOf_cons_head, outputsOf_cons_head, outputsOf_append, outputsOf_append,
      outputsOf_append, hout]
    simp
  · rw [errorsOf_cons_head, errorsOf_append, errorsOf_append]
    simp [List.append_assoc]

/-- Witness for C4 instantiating the isolation statement at the concrete
three-record batch around the corrupt middle record. -/
theorem C4_batch_isolation_witness :
    outputsOf (process_response_files 5 [(("alice"), 5)] ops0 ([rec1] ++ rec2 :: [rec3])) =
      outputsOf (process_response_files 5 [(("alice"), 5)] ops0 ([rec1] ++ [rec3])) ∧
    errorsOf (process_response_files 5 [(("alice"), 5)] ops0 ([rec1] ++ rec2 :: [rec3])) =
      errorsOf (runRecords ops0 ("alice") [rec1]) ++ errorsOf (processOne ops0 ("alice") rec2) ++
        errorsOf (runRecords ops0 ("alice") [rec3]) :=
  C4_batch_isolation.1 5 [(("alice"), 5)] ops0 ("alice") [rec1] [rec3] rec2
    rfl (by decide) (by decide)

/-- C7 counterexample: the text XB with the mapping sending AB to Z and
then X to A satisfies the side condition of the claim, since no placeholder
occurs in any original value, yet one reconstruction gives AB and a second
gives Z, so reconstruction is not idempotent under that side condition. -/
theorem C7_counterexample :
    (∀ pr ∈ [(("AB".toList), ("Z".toList)), (("X".toList), ("A".toList))],
      ∀ pr2 ∈ [(("AB".toList), ("Z".toList)), (("X".toList), ("A".toList))],
        occursIn pr.1 pr2.2 = false) ∧
    reconstruct_text ("XB".toList)
        [(("AB".toList), ("Z".toList)), (("X".toList), ("A".toList))] = ("AB".toList) ∧
    reconstruct_text (reconstruct_text ("XB".toList)
        [(("AB".toList), ("Z".toList)), (("X".toList), ("A".toList))])
        [(("AB".toList), ("Z".toList)), (("X".toList), ("A".toList))] = ("Z".toList) ∧
    ("Z".toList) ≠ ("AB".toList) :=
  ⟨by decide, by decide, by decide, by decide⟩

/-- C7 amended: reconstruction with the empty mapping is the identity
function, and reconstruction is idempotent whenever no placeholder of the
mapping occurs in the once-reconstructed text; the side condition of the
original claim, placeholders not occurring in original values, is not
sufficient because a replacement can splice a placeholder together at a
junction. -/
theorem C7_idempotence :
    (∀ t : List Char, reconstruct_text t [] = t) ∧
    (∀ (t : List Char) (m : EntityMapping),
        (∀ pr ∈ m, occursIn pr.1 (reconstruct_text t m) = false) →
        reconstruct_text (reconstruct_text t m) m = reconstruct_text t m) :=
  ⟨fun _ => rfl, fun t m h => reconstruct_text_fixed m (reconstruct_text t m) h⟩

/-- Witness for the amended C7 at a concrete text and mapping whose
placeholder is absent from the output. -/
theorem C7_idempotence_witness :
    reconstruct_text (reconstruct_text ("ab".toList) [(("a".toList), ("X".toList))])
        [(("a".toList), ("X".toList))] =
      reconstruct_text ("ab".toList) [(("a".toList), ("X".toList))] :=
  C7_idempotence.2 ("ab".toList) [(("a".toList), ("X".toList))] (by decide)

/-- C8: with an empty record collection the run consists of the directory
creation and exactly one no-input notice: no outputs, no reported errors, no
fatal error, no key file load and no identity resolution. -/
theorem C8_empty_input :
    ∀ (privN : Nat) (cat : List (String × Nat)) (ops : CryptoOps),
      process_response_files privN cat ops [] = [Event.madeOutputDir, Event.noFilesNotice] ∧
      outputsOf (process_response_files privN cat ops []) = [] ∧
      errorsOf (process_response_files privN cat ops []) = [] ∧
      keyLoadCount (process_response_files privN cat ops []) = 0 ∧
      (∀ u, Event.identityResolved u ∉ process_response_files privN cat ops []) ∧
      (∀ e, Event.fatal e ∉ process_response_files privN cat ops []) ∧
      (process_response_files privN cat ops []).count Event.noFilesNotice = 1 := by
  intro privN cat ops
  refine ⟨rfl, rfl, rfl, rfl, ?_, ?_, rfl⟩
  · intro u h
    simp [process_response_files] at h
  · intro e h
    simp [process_response_files] at h

/-- C10: an empty placeholder is not a no-op: replacing it interleaves the
original value before every character of the text and appends it after the
last, as CPython str.replace does on an empty pattern, so the text changes
although the empty placeholder never occurs in it as a token. -/
theorem C10_empty_placeholder :
    (∀ (t v : List Char), v ≠ [] →
        reconstruct_text t [(([] : List Char), v)] = interleave v t) ∧
    reconstruct_text ("ab".toList) [(([] : List Char), ("v".toList))] = ("vavbv".toList) ∧
    reconstruct_text ("ab".toList) [(([] : List Char), ("v".toList))] ≠ ("ab".toList) :=
  ⟨fun _ _ _ => rfl, by decide, by decide⟩

/-- Witness for C10 at the text ab and the value v. -/
theorem C10_empty_placeholder_witness :
    reconstruct_text ("ab".toList) [(([] : List Char), ("v".toList))] =
      interleave ("v".toList) ("ab".toList) :=
  C10_empty_placeholder.1 ("ab".toList) ("v".toList) (by decide)
